import Mathlib

/-!
Verification of the hostel-management server (`src/server.js`).

The development shallowly embeds the relational store (five tables keyed by
serial integer ids) and the request handlers the specification's claims are
about: the attendance batch upsert, the EB (electricity-bill) batch
allocation, the soft-delete / restore / permanent-delete lifecycle, and the
single-row attendance edit.  SQL statements are modelled over lists of rows:
`SELECT ... LIMIT 1` is `List.find?`, `UPDATE ... WHERE` is `List.map` with a
conditional rewrite, `DELETE ... WHERE` is `List.filter`, `INSERT` appends a
row carrying the next serial id.  `ORDER BY` clauses only permute result
rows and are irrelevant to every property below (which are membership,
`find?`-by-key and count facts), so they are not modelled.  Handlers return
the new store paired with the JSON envelope they send; storage-level errors
cannot occur in the pure model, so the HTTP-500 branches are unreachable and
not represented.
-/

namespace Hostel

/-- A row of the `students` table (Postgres variant schema). -/
structure Student where
  id : Nat
  hostel_code : String
  name : String
  address : String
  course : String
  phone : String
  room_number : String
  room_type : String
  food_option : String
  monthly_rent : Int
  advance_paid : Int
  advance_remaining : Int
  date_join : String
  date_leave : String
  photo_path : Option String
  is_deleted : Int
  deleted_at : Option String
deriving DecidableEq, Repr

/-- A row of the `rent_payments` table. -/
structure RentPayment where
  id : Nat
  student_id : Nat
  date : String
  rent_paid : Int
  remaining : Int
deriving DecidableEq, Repr

/-- A row of the `extra_food` table. -/
structure ExtraFood where
  id : Nat
  student_id : Nat
  date : String
  amount : Int
  remaining : Int
deriving DecidableEq, Repr

/-- A row of the `attendance` table.  Note: the schema declares only plain
(non-unique) indexes on this table; there is no uniqueness constraint on
`(hostel_code, date, room_number, student_id)`. -/
structure AttendanceRow where
  id : Nat
  hostel_code : String
  date : String
  room_number : String
  student_id : Nat
  status : String
deriving DecidableEq, Repr

/-- A row of the `monthly_accounts` table. -/
structure MonthlyAccount where
  id : Nat
  hostel_code : String
  student_id : Nat
  date : String
  room_number : String
  rent_paid : Int
  rent_remaining : Int
  eb_share : Int
  eb_paid : Int
  eb_remaining : Int
deriving DecidableEq, Repr

/-- The relational store: the five tables plus the serial-id counters for the
tables the modelled handlers insert into. -/
structure Store where
  students : List Student
  rent_payments : List RentPayment
  extra_food : List ExtraFood
  attendance : List AttendanceRow
  monthly_accounts : List MonthlyAccount
  nextStudentId : Nat
  nextAttendanceId : Nat
  nextMonthlyId : Nat
deriving DecidableEq, Repr

/-- The store right after `initDb`: empty tables, serial counters at 1. -/
def emptyStore : Store :=
  { students := [], rent_payments := [], extra_food := [], attendance := [],
    monthly_accounts := [], nextStudentId := 1, nextAttendanceId := 1,
    nextMonthlyId := 1 }

/-- Uniform JSON envelope `{success, message?}` together with the HTTP status
the handler responds with. -/
structure ApiResponse where
  httpStatus : Nat
  success : Bool
  message : Option String
deriving DecidableEq, Repr

/-- Response of `POST /api/rooms/:room/attendance`. -/
structure AttendanceBatchResponse where
  httpStatus : Nat
  success : Bool
  message : Option String
  total_students : Option Nat
deriving DecidableEq, Repr

/-- Response of `POST /api/rooms/:room/eb-batch`. -/
structure EbBatchResponse where
  httpStatus : Nat
  success : Bool
  message : Option String
  room : Option String
  date : Option String
  total_students : Option Nat
  eb_total : Option Int
  eb_share : Option Int
deriving DecidableEq, Repr

/-- `WHERE hostel_code = $1 AND room_number = $2 AND COALESCE(is_deleted,0)=0`. -/
def isActiveIn (hostel room : String) (s : Student) : Bool :=
  s.hostel_code == hostel && s.room_number == room && s.is_deleted == 0

/-- The active-students query shared by the attendance and EB batch handlers. -/
def activeStudents (st : Store) (hostel room : String) : List Student :=
  st.students.filter (isActiveIn hostel room)

/-- `status = absentSet.has(s.id) ? "Absent" : "Present"`. -/
def attendanceStatus (absent_ids : List Nat) (sid : Nat) : String :=
  if absent_ids.contains sid then "Absent" else "Present"

/-- The attendance natural key:
`WHERE hostel_code=$1 AND date=$2 AND room_number=$3 AND student_id=$4`. -/
def matchesAttendanceKey (hostel date room : String) (sid : Nat)
    (a : AttendanceRow) : Bool :=
  a.hostel_code == hostel && a.date == date && a.room_number == room &&
    a.student_id == sid

/-- `UPDATE attendance SET status=$1 WHERE id=$2`. -/
def setAttendanceStatus (rows : List AttendanceRow) (rid : Nat)
    (status : String) : List AttendanceRow :=
  rows.map fun a => if a.id == rid then { a with status := status } else a

/-- One iteration of the attendance batch loop: look the natural key up with
`LIMIT 1`; update the found row's status, else insert a fresh row. -/
def attendanceUpsertOne (hostel date room : String) (absent_ids : List Nat)
    (st : Store) (s : Student) : Store :=
  let status := attendanceStatus absent_ids s.id
  match st.attendance.find? (matchesAttendanceKey hostel date room s.id) with
  | some existing =>
      { st with attendance := setAttendanceStatus st.attendance existing.id status }
  | none =>
      { st with
        attendance := st.attendance ++
          [{ id := st.nextAttendanceId, hostel_code := hostel, date := date,
             room_number := room, student_id := s.id, status := status }],
        nextAttendanceId := st.nextAttendanceId + 1 }

/-- `POST /api/rooms/:room/attendance` (Postgres variant; the SQLite variant
at the bottom of `server.js` runs the identical statements). -/
def postRoomAttendance (st : Store) (room hostel_code date : String)
    (absent_ids : List Nat) : Store × AttendanceBatchResponse :=
  if hostel_code = "" then
    (st, ⟨400, false, some "Missing hostel_code", none⟩)
  else if room = "" then
    (st, ⟨400, false, some "Missing room", none⟩)
  else if date = "" then
    (st, ⟨400, false, some "Missing date", none⟩)
  else
    let students := activeStudents st hostel_code room
    let st1 := students.foldl (attendanceUpsertOne hostel_code date room absent_ids) st
    (st1, ⟨200, true, none, some students.length⟩)

/-- JavaScript `String.prototype.trim`: strip whitespace from both ends. -/
def trimString (s : String) : String :=
  ⟨(((s.data.dropWhile Char.isWhitespace).reverse.dropWhile
      Char.isWhitespace).reverse)⟩

/-- `PUT /api/attendance/:id`: validates the status, then rewrites `date`,
`room_number` and `status` of the row with the given surrogate id. -/
def putAttendance (st : Store) (id : Nat) (date room_number status : String) :
    Store × ApiResponse :=
  let statusClean := trimString status
  if statusClean ≠ "Present" ∧ statusClean ≠ "Absent" then
    (st, ⟨400, false, some "Status must be Present or Absent"⟩)
  else
    let rows := st.attendance.map fun a =>
      if a.id == id then
        { a with date := date, room_number := room_number, status := statusClean }
      else a
    let rowCount := (st.attendance.filter (fun a => a.id == id)).length
    if rowCount = 0 then
      ({ st with attendance := rows }, ⟨200, false, some "Attendance row not found"⟩)
    else
      ({ st with attendance := rows }, ⟨200, true, none⟩)

/-- The monthly-account natural key:
`WHERE hostel_code=$1 AND student_id=$2 AND date=$3`. -/
def matchesMonthlyKey (hostel : String) (sid : Nat) (date : String)
    (m : MonthlyAccount) : Bool :=
  m.hostel_code == hostel && m.student_id == sid && m.date == date

/-- One iteration of the EB batch loop: find the row by natural key
(`LIMIT 1`); if present, overwrite `room_number`, `eb_share` and recompute
`eb_remaining = max(0, ebShare - eb_paid)`, else insert a fresh row with
`rent_paid = rent_remaining = eb_paid = 0` and `eb_remaining = ebShare`. -/
def ebUpsertOne (hostel date room : String) (ebShare : Int)
    (st : Store) (s : Student) : Store :=
  match st.monthly_accounts.find? (matchesMonthlyKey hostel s.id date) with
  | some existing =>
      let newEbRemaining := max 0 (ebShare - existing.eb_paid)
      { st with monthly_accounts := st.monthly_accounts.map fun m =>
          if m.id == existing.id then
            { m with room_number := room, eb_share := ebShare,
                     eb_remaining := newEbRemaining }
          else m }
  | none =>
      { st with
        monthly_accounts := st.monthly_accounts ++
          [{ id := st.nextMonthlyId, hostel_code := hostel, student_id := s.id,
             date := date, room_number := room, rent_paid := 0,
             rent_remaining := 0, eb_share := ebShare, eb_paid := 0,
             eb_remaining := ebShare }],
        nextMonthlyId := st.nextMonthlyId + 1 }

/-- `POST /api/rooms/:room/eb-batch`.  `Math.floor(ebTotal / n)` on integer
operands with `n > 0` is floored division, `Int.fdiv`.  (The handler's
`ORDER BY id` on the student query only affects processing order, which no
property below depends on.) -/
def postRoomEbBatch (st : Store) (room hostel_code date : String)
    (eb_total : Int) : Store × EbBatchResponse :=
  if hostel_code = "" then
    (st, ⟨400, false, some "Missing hostel_code", none, none, none, none, none⟩)
  else if room = "" then
    (st, ⟨400, false, some "Missing room", none, none, none, none, none⟩)
  else if date = "" then
    (st, ⟨400, false, some "Missing date", none, none, none, none, none⟩)
  else
    let students := activeStudents st hostel_code room
    if students.length = 0 then
      (st, ⟨200, false, some "No active students in this room.",
            none, none, none, none, none⟩)
    else
      let ebShare := Int.fdiv eb_total students.length
      let st1 := students.foldl (ebUpsertOne hostel_code date room ebShare) st
      (st1, ⟨200, true, none, some room, some date, some students.length,
             some eb_total, some ebShare⟩)

/-- Request body of `POST /api/students` (no photo stored in this variant). -/
structure NewStudentInput where
  hostel_code : String
  name : String
  address : String
  course : String
  phone : String
  room_number : String
  room_type : String
  food_option : String
  monthly_rent : Int
  advance_paid : Int
  advance_remaining : Int
  date_join : String
  date_leave : String
deriving DecidableEq, Repr

/-- `POST /api/students`: inserts a row with the next serial id,
`photo_path = NULL`, and the schema defaults `is_deleted = 0`,
`deleted_at = NULL`. -/
def postStudent (st : Store) (s : NewStudentInput) : Store × ApiResponse :=
  ({ st with
     students := st.students ++
       [{ id := st.nextStudentId, hostel_code := s.hostel_code, name := s.name,
          address := s.address, course := s.course, phone := s.phone,
          room_number := s.room_number, room_type := s.room_type,
          food_option := s.food_option, monthly_rent := s.monthly_rent,
          advance_paid := s.advance_paid, advance_remaining := s.advance_remaining,
          date_join := s.date_join, date_leave := s.date_leave,
          photo_path := none, is_deleted := 0, deleted_at := none }],
     nextStudentId := st.nextStudentId + 1 },
   ⟨200, true, none⟩)

/-- `DELETE /api/students/:id` (soft delete):
`UPDATE students SET is_deleted = 1, deleted_at = $1
 WHERE id = $2 AND COALESCE(is_deleted, 0) = 0`; reports a business
not-found failure when the update matched no row. -/
def softDeleteUpdater (id : Nat) (now : String) (s : Student) : Student :=
  if s.id == id && s.is_deleted == 0 then
    { s with is_deleted := 1, deleted_at := some now }
  else s

def softDeleteStudent (st : Store) (id : Nat) (now : String) :
    Store × ApiResponse :=
  let rowCount :=
    (st.students.filter (fun s => s.id == id && s.is_deleted == 0)).length
  let students := st.students.map (softDeleteUpdater id now)
  ({ st with students := students },
   if rowCount = 0 then ⟨200, false, some "Student not found (or already deleted)"⟩
   else ⟨200, true, none⟩)

/-- `POST /api/students/:id/restore`:
`UPDATE students SET is_deleted = 0, deleted_at = NULL WHERE id = $1` — note
there is no `WHERE` guard on `is_deleted`. -/
def restoreUpdater (id : Nat) (s : Student) : Student :=
  if s.id == id then { s with is_deleted := 0, deleted_at := none } else s

def restoreStudent (st : Store) (id : Nat) : Store × ApiResponse :=
  let rowCount := (st.students.filter (fun s => s.id == id)).length
  let students := st.students.map (restoreUpdater id)
  ({ st with students := students },
   if rowCount = 0 then ⟨200, false, some "Student not found"⟩
   else ⟨200, true, none⟩)

/-- `DELETE /api/students/:id/permanent` (Postgres variant): inside one
transaction, delete the rows referencing the student in the four dependent
tables, then the student row, then `COMMIT`; only after the commit is the
student-delete row count inspected for the not-found response.  The deletions
are therefore applied in both response branches. -/
def deleteStudentPermanent (st : Store) (id : Nat) : Store × ApiResponse :=
  let delCount := (st.students.filter (fun s => s.id == id)).length
  let st1 : Store :=
    { st with
      attendance := st.attendance.filter (fun a => a.student_id != id),
      extra_food := st.extra_food.filter (fun e => e.student_id != id),
      rent_payments := st.rent_payments.filter (fun r => r.student_id != id),
      monthly_accounts := st.monthly_accounts.filter (fun m => m.student_id != id),
      students := st.students.filter (fun s => s.id != id) }
  (st1,
   if delCount = 0 then ⟨200, false, some "Student not found"⟩
   else ⟨200, true, none⟩)

/-- `GET /api/students/:id/attendance` row set (the handler's `ORDER BY` only
permutes rows). -/
def studentAttendanceRows (st : Store) (sid : Nat) : List AttendanceRow :=
  st.attendance.filter (fun a => a.student_id == sid)

/-- `GET /api/students/:id/rent` row set. -/
def studentRentRows (st : Store) (sid : Nat) : List RentPayment :=
  st.rent_payments.filter (fun r => r.student_id == sid)

/-- `GET /api/students/:id/extra-food` row set. -/
def studentExtraFoodRows (st : Store) (sid : Nat) : List ExtraFood :=
  st.extra_food.filter (fun e => e.student_id == sid)

/-- `GET /api/students/:id/monthly-account` row set. -/
def studentMonthlyRows (st : Store) (sid : Nat) : List MonthlyAccount :=
  st.monthly_accounts.filter (fun m => m.student_id == sid)

/-- Two attendance rows carry the same natural key. -/
def sameAttendanceKey (a b : AttendanceRow) : Bool :=
  a.hostel_code == b.hostel_code && a.date == b.date &&
    a.room_number == b.room_number && a.student_id == b.student_id

/-- At most one attendance row per natural key
`(hostel_code, date, room_number, student_id)`. -/
def attKeyUnique (rows : List AttendanceRow) : Prop :=
  rows.Pairwise (fun a b => sameAttendanceKey a b = false)

instance (rows : List AttendanceRow) : Decidable (attKeyUnique rows) := by
  unfold attKeyUnique; infer_instance

/-- Store sanity carried by the SQL schema: `SERIAL PRIMARY KEY` ids are
pairwise distinct and below the next serial value, for each table the
modelled handlers insert into. -/
def Store.WF (st : Store) : Prop :=
  (st.students.map fun s => s.id).Nodup ∧
  (∀ s ∈ st.students, s.id < st.nextStudentId) ∧
  (st.attendance.map fun a => a.id).Nodup ∧
  (∀ a ∈ st.attendance, a.id < st.nextAttendanceId) ∧
  (st.monthly_accounts.map fun m => m.id).Nodup ∧
  (∀ m ∈ st.monthly_accounts, m.id < st.nextMonthlyId)

instance (st : Store) : Decidable st.WF := by
  unfold Store.WF; infer_instance

/-! General list lemmas used by the upsert proofs. -/

theorem find?_map_of_pred_inv {α : Type _} (f : α → α) (p : α → Bool)
    (hp : ∀ a, p (f a) = p a) (l : List α) :
    (l.map f).find? p = (l.find? p).map f := by
  induction l with
  | nil => rfl
  | cons a t ih =>
      by_cases h : p a = true
      · rw [List.map_cons, List.find?_cons_of_pos _ (by rw [hp]; exact h),
          List.find?_cons_of_pos _ h, Option.map_some']
      · rw [List.map_cons, List.find?_cons_of_neg _ (by rw [hp]; exact h),
          List.find?_cons_of_neg _ h, ih]

theorem map_eq_self_of_mem {α : Type _} (f : α → α) (l : List α)
    (h : ∀ a ∈ l, f a = a) : l.map f = l := by
  have h' : ∀ a ∈ l, f a = id a := h
  rw [List.map_congr_left h', List.map_id]

theorem foldl_eq_self_of_step_id {α β : Type _} (f : β → α → β) (b : β)
    (l : List α) (h : ∀ a ∈ l, f b a = b) : l.foldl f b = b := by
  induction l with
  | nil => rfl
  | cons a t ih =>
      rw [List.foldl_cons, h a (List.mem_cons_self a t)]
      exact ih fun x hx => h x (List.mem_cons_of_mem a hx)

/-! Attendance upsert machinery. -/

theorem matchesAttendanceKey_student_id {hostel date room : String} {sid : Nat}
    {a : AttendanceRow} (h : matchesAttendanceKey hostel date room sid a = true) :
    a.student_id = sid := by
  simp only [matchesAttendanceKey, Bool.and_eq_true, beq_iff_eq] at h
  exact h.2

theorem matchesAttendanceKey_setStatus (hostel date room : String) (sid : Nat)
    (rid : Nat) (status : String) (a : AttendanceRow) :
    matchesAttendanceKey hostel date room sid
        (if a.id == rid then { a with status := status } else a) =
      matchesAttendanceKey hostel date room sid a := by
  by_cases h : a.id == rid <;> simp [h, matchesAttendanceKey]

theorem setAttendanceStatus_find? (l : List AttendanceRow)
    (hostel date room : String) (sid rid : Nat) (status : String) :
    (setAttendanceStatus l rid status).find? (matchesAttendanceKey hostel date room sid) =
      (l.find? (matchesAttendanceKey hostel date room sid)).map
        (fun a => if a.id == rid then { a with status := status } else a) :=
  find?_map_of_pred_inv _ _
    (matchesAttendanceKey_setStatus hostel date room sid rid status) l

theorem setAttendanceStatus_map_id (l : List AttendanceRow) (rid : Nat)
    (status : String) :
    ((setAttendanceStatus l rid status).map fun a => a.id) = l.map fun a => a.id := by
  unfold setAttendanceStatus
  rw [List.map_map]
  refine List.map_congr_left fun a _ => ?_
  by_cases h : a.id == rid
  · simp only [Function.comp_apply, if_pos h]
  · simp only [Function.comp_apply, if_neg h]

/-- Relation between the store before and after the attendance upsert for one
natural key: a pre-existing first row keeps its identity with only `status`
overwritten; otherwise the key resolves to a freshly inserted row. -/
def PostRelAtt (hostel date room : String) (abs : List Nat) (a b : Store)
    (sid : Nat) : Prop :=
  match a.attendance.find? (matchesAttendanceKey hostel date room sid) with
  | some ex =>
      b.attendance.find? (matchesAttendanceKey hostel date room sid) =
        some { ex with status := attendanceStatus abs sid }
  | none =>
      ∃ r, b.attendance.find? (matchesAttendanceKey hostel date room sid) = some r ∧
        r.status = attendanceStatus abs sid ∧ r.student_id = sid ∧
        r.hostel_code = hostel ∧ r.date = date ∧ r.room_number = room ∧
        a.nextAttendanceId ≤ r.id

theorem PostRelAtt_congr_right {hostel date room : String} {abs : List Nat}
    {a b c : Store} {sid : Nat}
    (h : PostRelAtt hostel date room abs a b sid)
    (hc : c.attendance.find? (matchesAttendanceKey hostel date room sid) =
      b.attendance.find? (matchesAttendanceKey hostel date room sid)) :
    PostRelAtt hostel date room abs a c sid := by
  unfold PostRelAtt at h ⊢
  cases hfind : a.attendance.find? (matchesAttendanceKey hostel date room sid) with
  | some ex =>
      rw [hfind] at h
      rw [hc, h]
  | none =>
      rw [hfind] at h
      obtain ⟨r, hr, hrest⟩ := h
      exact ⟨r, by rw [hc, hr], hrest⟩

theorem PostRelAtt_congr_left {hostel date room : String} {abs : List Nat}
    {a b c : Store} {sid : Nat}
    (h : PostRelAtt hostel date room abs b c sid)
    (hb : b.attendance.find? (matchesAttendanceKey hostel date room sid) =
      a.attendance.find? (matchesAttendanceKey hostel date room sid))
    (hn : a.nextAttendanceId ≤ b.nextAttendanceId) :
    PostRelAtt hostel date room abs a c sid := by
  unfold PostRelAtt at h ⊢
  cases hfind : a.attendance.find? (matchesAttendanceKey hostel date room sid) with
  | some ex =>
      rw [hb, hfind] at h
      exact h
  | none =>
      rw [hb, hfind] at h
      obtain ⟨r, hr, h1, h2, h3, h4, h5, h6⟩ := h
      exact ⟨r, hr, h1, h2, h3, h4, h5, le_trans hn h6⟩

theorem PostRelAtt_exists {hostel date room : String} {abs : List Nat}
    {a b : Store} {sid : Nat} (h : PostRelAtt hostel date room abs a b sid) :
    ∃ r, b.attendance.find? (matchesAttendanceKey hostel date room sid) = some r ∧
      r.status = attendanceStatus abs sid := by
  unfold PostRelAtt at h
  cases hfind : a.attendance.find? (matchesAttendanceKey hostel date room sid) with
  | some ex =>
      rw [hfind] at h
      exact ⟨_, h, rfl⟩
  | none =>
      rw [hfind] at h
      obtain ⟨r, hr, h1, _⟩ := h
      exact ⟨r, hr, h1⟩

theorem attendanceUpsertOne_frame (hostel date room : String) (abs : List Nat)
    (st : Store) (s : Student) :
    (attendanceUpsertOne hostel date room abs st s).students = st.students ∧
    (attendanceUpsertOne hostel date room abs st s).rent_payments = st.rent_payments ∧
    (attendanceUpsertOne hostel date room abs st s).extra_food = st.extra_food ∧
    (attendanceUpsertOne hostel date room abs st s).monthly_accounts = st.monthly_accounts ∧
    (attendanceUpsertOne hostel date room abs st s).nextStudentId = st.nextStudentId ∧
    (attendanceUpsertOne hostel date room abs st s).nextMonthlyId = st.nextMonthlyId := by
  unfold attendanceUpsertOne
  cases st.attendance.find? (matchesAttendanceKey hostel date room s.id) <;>
    exact ⟨rfl, rfl, rfl, rfl, rfl, rfl⟩

theorem attendanceUpsertOne_nextId_le (hostel date room : String) (abs : List Nat)
    (st : Store) (s : Student) :
    st.nextAttendanceId ≤ (attendanceUpsertOne hostel date room abs st s).nextAttendanceId := by
  unfold attendanceUpsertOne
  cases st.attendance.find? (matchesAttendanceKey hostel date room s.id) with
  | some ex => exact le_refl _
  | none => exact Nat.le_succ _

theorem attendanceUpsertOne_wf (hostel date room : String) (abs : List Nat)
    (st : Store) (s : Student)
    (hN : (st.attendance.map fun a => a.id).Nodup)
    (hB : ∀ a ∈ st.attendance, a.id < st.nextAttendanceId) :
    ((attendanceUpsertOne hostel date room abs st s).attendance.map fun a => a.id).Nodup ∧
    (∀ a ∈ (attendanceUpsertOne hostel date room abs st s).attendance,
      a.id < (attendanceUpsertOne hostel date room abs st s).nextAttendanceId) := by
  unfold attendanceUpsertOne
  cases st.attendance.find? (matchesAttendanceKey hostel date room s.id) with
  | some ex =>
      refine ⟨?_, ?_⟩
      · rw [setAttendanceStatus_map_id]; exact hN
      · intro a ha
        simp only [setAttendanceStatus, List.mem_map] at ha
        obtain ⟨b, hb, rfl⟩ := ha
        have hid : (if b.id == ex.id then { b with status := attendanceStatus abs s.id } else b).id = b.id := by
          by_cases h : b.id == ex.id <;> simp [h]
        rw [hid]
        exact hB b hb
  | none =>
      refine ⟨?_, ?_⟩
      · rw [List.map_append]
        rw [List.nodup_append]
        refine ⟨hN, List.nodup_singleton _, ?_⟩
        intro x hx hy
        simp only [List.map_cons, List.map_nil, List.mem_singleton] at hy
        subst hy
        simp only [List.mem_map] at hx
        obtain ⟨b, hb, hbid⟩ := hx
        exact absurd hbid (Nat.ne_of_lt (hB b hb))
      · intro a ha
        rcases List.mem_append.mp ha with h | h
        · exact Nat.lt_succ_of_lt (hB a h)
        · simp only [List.mem_singleton] at h
          subst h
          exact Nat.lt_succ_self _

theorem attendanceUpsertOne_post (hostel date room : String) (abs : List Nat)
    (st : Store) (s : Student) :
    PostRelAtt hostel date room abs st (attendanceUpsertOne hostel date room abs st s) s.id := by
  unfold PostRelAtt attendanceUpsertOne
  cases hfind : st.attendance.find? (matchesAttendanceKey hostel date room s.id) with
  | some ex =>
      rw [setAttendanceStatus_find?, hfind, Option.map_some']
      simp
  | none =>
      refine ⟨⟨st.nextAttendanceId, hostel, date, room, s.id,
        attendanceStatus abs s.id⟩, ?_, rfl, rfl, rfl, rfl, rfl, le_refl _⟩
      rw [List.find?_append, hfind, Option.none_or]
      exact List.find?_cons_of_pos _ (by simp [matchesAttendanceKey])

theorem attendanceUpsertOne_find?_other (hostel date room : String) (abs : List Nat)
    (st : Store) (s : Student) (sid : Nat)
    (hN : (st.attendance.map fun a => a.id).Nodup) (hne : sid ≠ s.id) :
    (attendanceUpsertOne hostel date room abs st s).attendance.find?
        (matchesAttendanceKey hostel date room sid) =
      st.attendance.find? (matchesAttendanceKey hostel date room sid) := by
  unfold attendanceUpsertOne
  cases hfind : st.attendance.find? (matchesAttendanceKey hostel date room s.id) with
  | some ex =>
      show (setAttendanceStatus st.attendance ex.id (attendanceStatus abs s.id)).find?
          (matchesAttendanceKey hostel date room sid) = _
      rw [setAttendanceStatus_find?]
      cases hsid : st.attendance.find? (matchesAttendanceKey hostel date room sid) with
      | none => rfl
      | some r =>
          rw [Option.map_some']
          have hrne : ¬(r.id == ex.id) = true := by
            intro hid
            have hreq : r = ex :=
              List.inj_on_of_nodup_map hN (List.mem_of_find?_eq_some hsid)
                (List.mem_of_find?_eq_some hfind) (by simpa using hid)
            have h1 : r.student_id = sid := matchesAttendanceKey_student_id (List.find?_some hsid)
            have h2 : ex.student_id = s.id := matchesAttendanceKey_student_id (List.find?_some hfind)
            exact hne (by rw [← h1, hreq, h2])
          simp [hrne]
  | none =>
      show (st.attendance ++ [_]).find? (matchesAttendanceKey hostel date room sid) = _
      rw [List.find?_append]
      have hnew : matchesAttendanceKey hostel date room sid
              { id := st.nextAttendanceId, hostel_code := hostel, date := date,
                room_number := room, student_id := s.id,
                status := attendanceStatus abs s.id } = false := by
        simp [matchesAttendanceKey]
        exact fun h => absurd h.symm hne
      cases hsid : st.attendance.find? (matchesAttendanceKey hostel date room sid) with
      | some r => rfl
      | none =>
          rw [Option.none_or]
          rw [List.find?_cons_of_neg _ (by simp [hnew])]
          rfl

theorem sameAttendanceKey_ignores_status (a b : AttendanceRow) (rid : Nat)
    (status : String) :
    sameAttendanceKey (if a.id == rid then { a with status := status } else a)
        (if b.id == rid then { b with status := status } else b) =
      sameAttendanceKey a b := by
  by_cases ha : a.id == rid <;> by_cases hb : b.id == rid <;>
    simp [ha, hb, sameAttendanceKey]

theorem attendanceUpsertOne_keyUnique (hostel date room : String) (abs : List Nat)
    (st : Store) (s : Student) (hU : attKeyUnique st.attendance) :
    attKeyUnique (attendanceUpsertOne hostel date room abs st s).attendance := by
  unfold attendanceUpsertOne
  cases hfind : st.attendance.find? (matchesAttendanceKey hostel date room s.id) with
  | some ex =>
      show attKeyUnique (setAttendanceStatus st.attendance ex.id (attendanceStatus abs s.id))
      unfold attKeyUnique setAttendanceStatus
      rw [List.pairwise_map]
      refine List.Pairwise.imp ?_ hU
      intro a b hab
      rw [sameAttendanceKey_ignores_status]
      exact hab
  | none =>
      show attKeyUnique (st.attendance ++ [_])
      unfold attKeyUnique
      rw [List.pairwise_append]
      refine ⟨hU, List.pairwise_singleton _ _, ?_⟩
      intro a ha b hb
      simp only [List.mem_singleton] at hb
      subst hb
      have hno : ¬ matchesAttendanceKey hostel date room s.id a = true :=
        List.find?_eq_none.mp hfind a ha
      simp only [matchesAttendanceKey, Bool.and_eq_true, beq_iff_eq] at hno
      simp only [sameAttendanceKey, Bool.and_eq_false_iff]
      by_cases h1 : a.hostel_code = hostel
      · by_cases h2 : a.date = date
        · by_cases h3 : a.room_number = room
          · have h4 : ¬ a.student_id = s.id := fun h4 => hno ⟨⟨⟨h1, h2⟩, h3⟩, h4⟩
            exact Or.inr (by simpa using h4)
          · exact Or.inl (Or.inr (by simpa using h3))
        · exact Or.inl (Or.inl (Or.inr (by simpa using h2)))
      · exact Or.inl (Or.inl (Or.inl (by simpa using h1)))

/-- Everything the attendance batch loop guarantees about its final store
`res` relative to the store `acc` it started from. -/
def AttFoldOutcome (hostel date room : String) (abs : List Nat)
    (ss : List Student) (acc res : Store) : Prop :=
  res.students = acc.students ∧
  res.rent_payments = acc.rent_payments ∧
  res.extra_food = acc.extra_food ∧
  res.monthly_accounts = acc.monthly_accounts ∧
  res.nextStudentId = acc.nextStudentId ∧
  res.nextMonthlyId = acc.nextMonthlyId ∧
  (res.attendance.map fun a => a.id).Nodup ∧
  (∀ a ∈ res.attendance, a.id < res.nextAttendanceId) ∧
  acc.nextAttendanceId ≤ res.nextAttendanceId ∧
  (∀ sid : Nat, (∀ s ∈ ss, s.id ≠ sid) →
    res.attendance.find? (matchesAttendanceKey hostel date room sid) =
      acc.attendance.find? (matchesAttendanceKey hostel date room sid)) ∧
  (∀ s ∈ ss, PostRelAtt hostel date room abs acc res s.id) ∧
  (attKeyUnique acc.attendance → attKeyUnique res.attendance)

theorem attendanceFold_spec (hostel date room : String) (abs : List Nat) :
    ∀ (ss : List Student) (acc : Store),
      (acc.attendance.map fun a => a.id).Nodup →
      (∀ a ∈ acc.attendance, a.id < acc.nextAttendanceId) →
      ((ss.map fun s => s.id).Nodup) →
      AttFoldOutcome hostel date room abs ss acc
        (ss.foldl (attendanceUpsertOne hostel date room abs) acc) := by
  intro ss
  induction ss with
  | nil =>
      intro acc hN hB _
      exact ⟨rfl, rfl, rfl, rfl, rfl, rfl, hN, hB, le_refl _,
        fun sid _ => rfl, fun s hs => absurd hs (List.not_mem_nil s), fun h => h⟩
  | cons s tl ih =>
      intro acc hN hB hss
      rw [List.map_cons, List.nodup_cons] at hss
      obtain ⟨hsid_notin, htl_nodup⟩ := hss
      have hstep_wf := attendanceUpsertOne_wf hostel date room abs acc s hN hB
      have hstep_frame := attendanceUpsertOne_frame hostel date room abs acc s
      have hstep_next := attendanceUpsertOne_nextId_le hostel date room abs acc s
      have IH := ih (attendanceUpsertOne hostel date room abs acc s)
        hstep_wf.1 hstep_wf.2 htl_nodup
      rw [List.foldl_cons]
      obtain ⟨f1, f2, f3, f4, f5, f6, w1, w2, wn, hunch, hpost, huniq⟩ := IH
      have htl_ne : ∀ s' ∈ tl, s'.id ≠ s.id := by
        intro s' hs' heq
        exact hsid_notin (List.mem_map.mpr ⟨s', hs', heq⟩)
      refine ⟨by rw [f1, hstep_frame.1], by rw [f2, hstep_frame.2.1],
        by rw [f3, hstep_frame.2.2.1], by rw [f4, hstep_frame.2.2.2.1],
        by rw [f5, hstep_frame.2.2.2.2.1], by rw [f6, hstep_frame.2.2.2.2.2],
        w1, w2, le_trans hstep_next wn, ?_, ?_, ?_⟩
      · intro sid hsid
        have h1 := hunch sid fun s' hs' => hsid s' (List.mem_cons_of_mem s hs')
        have h2 := attendanceUpsertOne_find?_other hostel date room abs acc s sid hN
          (fun heq => hsid s (List.mem_cons_self s tl) heq.symm) |>.symm
        rw [h1, ← h2]
      · intro s' hs'
        rcases List.mem_cons.mp hs' with rfl | hs'tl
        · have hpost1 := attendanceUpsertOne_post hostel date room abs acc s'
          have hun := hunch s'.id htl_ne
          exact PostRelAtt_congr_right hpost1 hun
        · have hpostIH := hpost s' hs'tl
          have hother := attendanceUpsertOne_find?_other hostel date room abs acc s
            s'.id hN (htl_ne s' hs'tl)
          exact PostRelAtt_congr_left hpostIH hother hstep_next
      · intro hU
        exact huniq (attendanceUpsertOne_keyUnique hostel date room abs acc s hU)

theorem attendanceUpsertOne_eq_self (hostel date room : String) (abs : List Nat)
    (st : Store) (s : Student)
    (hN : (st.attendance.map fun a => a.id).Nodup) (r : AttendanceRow)
    (hfind : st.attendance.find? (matchesAttendanceKey hostel date room s.id) = some r)
    (hst : r.status = attendanceStatus abs s.id) :
    attendanceUpsertOne hostel date room abs st s = st := by
  have hmap : setAttendanceStatus st.attendance r.id (attendanceStatus abs s.id) =
      st.attendance := by
    apply map_eq_self_of_mem
    intro a ha
    by_cases hid : a.id == r.id
    · have har : a = r :=
        List.inj_on_of_nodup_map hN ha (List.mem_of_find?_eq_some hfind)
          (by simpa using hid)
      subst har
      rw [if_pos hid, ← hst]
    · rw [if_neg hid]
  unfold attendanceUpsertOne
  rw [hfind]
  show { st with attendance := setAttendanceStatus st.attendance r.id (attendanceStatus abs s.id) } = st
  rw [hmap]

theorem postRoomAttendance_success (st : Store) (room hostel date : String)
    (abs : List Nat) (hh : hostel ≠ "") (hr : room ≠ "") (hd : date ≠ "") :
    postRoomAttendance st room hostel date abs =
      ((activeStudents st hostel room).foldl
          (attendanceUpsertOne hostel date room abs) st,
       ⟨200, true, none, some (activeStudents st hostel room).length⟩) := by
  unfold postRoomAttendance
  rw [if_neg hh, if_neg hr, if_neg hd]

theorem activeStudents_congr (st st' : Store) (hostel room : String)
    (h : st'.students = st.students) :
    activeStudents st' hostel room = activeStudents st hostel room := by
  unfold activeStudents
  rw [h]

theorem activeStudents_ids_nodup (st : Store) (hostel room : String)
    (h : (st.students.map fun s => s.id).Nodup) :
    ((activeStudents st hostel room).map fun s => s.id).Nodup :=
  List.Nodup.sublist (List.Sublist.map _ (List.filter_sublist st.students)) h

/-- Auxiliary: one run of the attendance batch handler is a fixed point of a
second identical run. -/
theorem postRoomAttendance_idem_aux (st : Store) (room hostel date : String)
    (abs : List Nat) (hWF : st.WF) :
    postRoomAttendance (postRoomAttendance st room hostel date abs).1 room hostel date abs
      = postRoomAttendance st room hostel date abs := by
  by_cases hh : hostel = ""
  · unfold postRoomAttendance
    rw [if_pos hh, if_pos hh]
  · by_cases hr : room = ""
    · unfold postRoomAttendance
      rw [if_neg hh, if_pos hr, if_neg hh, if_pos hr]
    · by_cases hd : date = ""
      · unfold postRoomAttendance
        rw [if_neg hh, if_neg hr, if_pos hd, if_neg hh, if_neg hr, if_pos hd]
      · obtain ⟨hsN, _, haN, haB, _⟩ := hWF
        rw [postRoomAttendance_success st room hostel date abs hh hr hd]
        have hnodup := activeStudents_ids_nodup st hostel room hsN
        have O := attendanceFold_spec hostel date room abs
          (activeStudents st hostel room) st haN haB hnodup
        obtain ⟨f1, _, _, _, _, _, w1, _, _, _, hpost, _⟩ := O
        rw [postRoomAttendance_success _ room hostel date abs hh hr hd]
        rw [activeStudents_congr st _ hostel room f1]
        have hid : ∀ s ∈ activeStudents st hostel room,
            attendanceUpsertOne hostel date room abs
              ((activeStudents st hostel room).foldl
                (attendanceUpsertOne hostel date room abs) st) s =
              (activeStudents st hostel room).foldl
                (attendanceUpsertOne hostel date room abs) st := by
          intro s hs
          obtain ⟨r, hrfind, hrst⟩ := PostRelAtt_exists (hpost s hs)
          exact attendanceUpsertOne_eq_self hostel date room abs _ s w1 r hrfind hrst
        rw [foldl_eq_self_of_step_id _ _ _ hid]

/-- C1 (amended): running the attendance batch twice with identical input
produces the same final state and response as running it once; and provided
the store already satisfies the at-most-one-row-per-natural-key invariant,
afterwards each active student of the room has exactly one attendance row
for the (hostel, date, room, student) key (uniqueness is preserved and the
key resolves to a row), whose status matches the latest call.  The proviso
is necessary: see `attendance_batch_duplicate_survives`. -/
theorem attendance_batch_idempotent (st : Store) (room hostel date : String)
    (abs : List Nat) (hWF : st.WF) (hU : attKeyUnique st.attendance) :
    postRoomAttendance (postRoomAttendance st room hostel date abs).1 room hostel date abs
      = postRoomAttendance st room hostel date abs ∧
    attKeyUnique (postRoomAttendance st room hostel date abs).1.attendance ∧
    (hostel ≠ "" → room ≠ "" → date ≠ "" →
      ∀ s ∈ activeStudents st hostel room,
        ∃ r, (postRoomAttendance st room hostel date abs).1.attendance.find?
            (matchesAttendanceKey hostel date room s.id) = some r ∧
          r.status = attendanceStatus abs s.id) := by
  refine ⟨postRoomAttendance_idem_aux st room hostel date abs hWF, ?_, ?_⟩
  · by_cases hh : hostel = ""
    · unfold postRoomAttendance
      rw [if_pos hh]
      exact hU
    · by_cases hr : room = ""
      · unfold postRoomAttendance
        rw [if_neg hh, if_pos hr]
        exact hU
      · by_cases hd : date = ""
        · unfold postRoomAttendance
          rw [if_neg hh, if_neg hr, if_pos hd]
          exact hU
        · obtain ⟨hsN, _, haN, haB, _⟩ := hWF
          rw [postRoomAttendance_success st room hostel date abs hh hr hd]
          have O := attendanceFold_spec hostel date room abs
            (activeStudents st hostel room) st haN haB
            (activeStudents_ids_nodup st hostel room hsN)
          exact O.2.2.2.2.2.2.2.2.2.2.2 hU
  · intro hh hr hd s hs
    obtain ⟨hsN, _, haN, haB, _⟩ := hWF
    rw [postRoomAttendance_success st room hostel date abs hh hr hd]
    have O := attendanceFold_spec hostel date room abs
      (activeStudents st hostel room) st haN haB
      (activeStudents_ids_nodup st hostel room hsN)
    exact PostRelAtt_exists (O.2.2.2.2.2.2.2.2.2.2.1 s hs)

/-- A store reached from the fresh store through API operations only, in
which the single active student's natural key for 2024-01-01 is carried by
two attendance rows (the duplicate was created by the `PUT` date edit). -/
def attDupBase : Store :=
  (putAttendance
    ((postRoomAttendance
      ((postRoomAttendance
        ((postStudent emptyStore
          ⟨"H", "Asha", "addr", "course", "phone", "101", "2-share", "yes",
            5000, 0, 0, "2024-01-01", ""⟩).1)
        "101" "H" "2024-01-01" []).1)
      "101" "H" "2024-01-02" []).1)
    2 "2024-01-01" "101" "Absent").1

/-- C1 counterexample: on the reachable store `attDupBase` the batch — run
twice with identical input — leaves TWO attendance rows for the natural key
of the room's single active student, so the claim's "exactly one
AttendanceRecord per (hostel_code, date, room_number, student_id) for each
active student" does not hold for every state. -/
theorem attendance_batch_duplicate_survives :
    ((activeStudents attDupBase "H" "101").map fun s => s.id) = [1] ∧
    ((postRoomAttendance (postRoomAttendance attDupBase "101" "H" "2024-01-01" []).1
        "101" "H" "2024-01-01" []).1.attendance.filter
      (matchesAttendanceKey "H" "2024-01-01" "101" 1)).length = 2 := by
  decide

/-- C2: on a valid request, every active student of the room ends with an
attendance row for the natural key whose status is "Absent" exactly when the
student id is among `absent_ids` (a pre-existing row is overwritten in place,
otherwise a fresh row is inserted — this is `PostRelAtt`), and the response
reports `total_students` = number of active students fetched. -/
theorem attendance_batch_postcondition (st : Store) (room hostel date : String)
    (abs : List Nat) (hWF : st.WF) (hh : hostel ≠ "") (hr : room ≠ "")
    (hd : date ≠ "") :
    (postRoomAttendance st room hostel date abs).2 =
      ⟨200, true, none, some (activeStudents st hostel room).length⟩ ∧
    ∀ s ∈ activeStudents st hostel room,
      PostRelAtt hostel date room abs st
        (postRoomAttendance st room hostel date abs).1 s.id := by
  obtain ⟨hsN, _, haN, haB, _⟩ := hWF
  rw [postRoomAttendance_success st room hostel date abs hh hr hd]
  have O := attendanceFold_spec hostel date room abs
    (activeStudents st hostel room) st haN haB
    (activeStudents_ids_nodup st hostel room hsN)
  exact ⟨rfl, O.2.2.2.2.2.2.2.2.2.2.1⟩

/-- Sample data used by the concrete witnesses below. -/
def sampleStudent : Student :=
  ⟨1, "H", "Asha", "addr", "course", "phone", "101", "2-share", "yes",
    5000, 0, 0, "2024-01-01", "", none, 0, none⟩

def sampleStore : Store :=
  { emptyStore with students := [sampleStudent], nextStudentId := 2 }

def sampleStoreWithAttendance : Store :=
  { emptyStore with
    students := [sampleStudent], nextStudentId := 2,
    attendance := [⟨1, "H", "2024-01-01", "101", 1, "Absent"⟩],
    nextAttendanceId := 2 }

/-- C1 witness: the idempotence and exactly-one-row conclusions at a concrete
store holding one active student. -/
theorem attendance_batch_idempotent_witness :
    postRoomAttendance (postRoomAttendance sampleStore "101" "H" "2024-01-01" []).1
        "101" "H" "2024-01-01" [] =
      postRoomAttendance sampleStore "101" "H" "2024-01-01" [] ∧
    ∃ r, (postRoomAttendance sampleStore "101" "H" "2024-01-01" []).1.attendance.find?
        (matchesAttendanceKey "H" "2024-01-01" "101" 1) = some r ∧
      r.status = "Present" := by
  have h := attendance_batch_idempotent sampleStore "101" "H" "2024-01-01" []
    (by decide) (by decide)
  exact ⟨h.1, h.2.2 (by decide) (by decide) (by decide) sampleStudent (by decide)⟩

/-- C2 witness: the postcondition at a concrete store in which the student
already has an "Absent" row for the date, overwritten to "Present". -/
theorem attendance_batch_postcondition_witness :
    (postRoomAttendance sampleStoreWithAttendance "101" "H" "2024-01-01" []).2 =
      ⟨200, true, none, some 1⟩ ∧
    PostRelAtt "H" "2024-01-01" "101" [] sampleStoreWithAttendance
      (postRoomAttendance sampleStoreWithAttendance "101" "H" "2024-01-01" []).1 1 := by
  have h := attendance_batch_postcondition sampleStoreWithAttendance "101" "H"
    "2024-01-01" [] (by decide) (by decide) (by decide) (by decide)
  exact ⟨h.1.trans (by decide), h.2 sampleStudent (by decide)⟩

/-- C9 (amended): the attendance batch upsert preserves the at-most-one-row-
per-natural-key invariant. -/
theorem attendance_batch_preserves_key_uniqueness (st : Store)
    (room hostel date : String) (abs : List Nat) (hWF : st.WF)
    (hU : attKeyUnique st.attendance) :
    attKeyUnique (postRoomAttendance st room hostel date abs).1.attendance := by
  by_cases hh : hostel = ""
  · unfold postRoomAttendance
    rw [if_pos hh]
    exact hU
  · by_cases hr : room = ""
    · unfold postRoomAttendance
      rw [if_neg hh, if_pos hr]
      exact hU
    · by_cases hd : date = ""
      · unfold postRoomAttendance
        rw [if_neg hh, if_neg hr, if_pos hd]
        exact hU
      · obtain ⟨hsN, _, haN, haB, _⟩ := hWF
        rw [postRoomAttendance_success st room hostel date abs hh hr hd]
        have O := attendanceFold_spec hostel date room abs
          (activeStudents st hostel room) st haN haB
          (activeStudents_ids_nodup st hostel room hsN)
        exact O.2.2.2.2.2.2.2.2.2.2.2 hU

/-- C9 witness: uniqueness preservation applied at a concrete store. -/
theorem attendance_batch_preserves_key_uniqueness_witness :
    attKeyUnique (postRoomAttendance sampleStoreWithAttendance
      "101" "H" "2024-01-02" [1]).1.attendance :=
  attendance_batch_preserves_key_uniqueness sampleStoreWithAttendance "101" "H"
    "2024-01-02" [1] (by decide) (by decide)

/-- C9 counterexample: the uniqueness invariant is not maintained by every
operation.  Starting from the freshly initialised store, the API sequence
(register a student; take attendance for the room on two dates; edit the
second attendance row's date to the first date via `PUT /api/attendance/:id`)
reaches a state with two attendance rows carrying the same natural key — the
schema declares no uniqueness constraint that would forbid this. -/
theorem attendance_key_uniqueness_violated_by_put :
    ¬ attKeyUnique
      ((putAttendance
        ((postRoomAttendance
          ((postRoomAttendance
            ((postStudent emptyStore
              ⟨"H", "Asha", "addr", "course", "phone", "101", "2-share", "yes",
                5000, 0, 0, "2024-01-01", ""⟩).1)
            "101" "H" "2024-01-01" []).1)
          "101" "H" "2024-01-02" []).1)
        2 "2024-01-01" "101" "Present").1).attendance := by
  decide

/-! EB batch upsert machinery, mirroring the attendance development. -/

theorem matchesMonthlyKey_student_id {hostel date : String} {sid : Nat}
    {m : MonthlyAccount} (h : matchesMonthlyKey hostel sid date m = true) :
    m.student_id = sid := by
  simp only [matchesMonthlyKey, Bool.and_eq_true, beq_iff_eq] at h
  exact h.1.2

theorem matchesMonthlyKey_ebSet (hostel date : String) (sid rid : Nat)
    (room : String) (share rem : Int) (m : MonthlyAccount) :
    matchesMonthlyKey hostel sid date
        (if m.id == rid then
          { m with room_number := room, eb_share := share, eb_remaining := rem }
        else m) =
      matchesMonthlyKey hostel sid date m := by
  by_cases h : m.id == rid <;> simp [h, matchesMonthlyKey]

/-- Relation between the store before and after the EB upsert for one
monthly-account natural key: a pre-existing first row keeps `eb_paid` (and
the rent fields) while `room_number`, `eb_share` are overwritten and
`eb_remaining` is recomputed as `max 0 (share - eb_paid)`; otherwise the key
resolves to a freshly inserted row with `eb_paid = 0` and
`eb_remaining = share`. -/
def PostRelEb (hostel date room : String) (share : Int) (a b : Store)
    (sid : Nat) : Prop :=
  match a.monthly_accounts.find? (matchesMonthlyKey hostel sid date) with
  | some ex =>
      b.monthly_accounts.find? (matchesMonthlyKey hostel sid date) =
        some { ex with room_number := room, eb_share := share,
                       eb_remaining := max 0 (share - ex.eb_paid) }
  | none =>
      ∃ r, b.monthly_accounts.find? (matchesMonthlyKey hostel sid date) = some r ∧
        r.student_id = sid ∧ r.hostel_code = hostel ∧ r.date = date ∧
        r.room_number = room ∧ r.rent_paid = 0 ∧ r.rent_remaining = 0 ∧
        r.eb_share = share ∧ r.eb_paid = 0 ∧ r.eb_remaining = share ∧
        a.nextMonthlyId ≤ r.id

theorem PostRelEb_congr_right {hostel date room : String} {share : Int}
    {a b c : Store} {sid : Nat}
    (h : PostRelEb hostel date room share a b sid)
    (hc : c.monthly_accounts.find? (matchesMonthlyKey hostel sid date) =
      b.monthly_accounts.find? (matchesMonthlyKey hostel sid date)) :
    PostRelEb hostel date room share a c sid := by
  unfold PostRelEb at h ⊢
  cases hfind : a.monthly_accounts.find? (matchesMonthlyKey hostel sid date) with
  | some ex =>
      rw [hfind] at h
      rw [hc, h]
  | none =>
      rw [hfind] at h
      obtain ⟨r, hr, hrest⟩ := h
      exact ⟨r, by rw [hc, hr], hrest⟩

theorem PostRelEb_congr_left {hostel date room : String} {share : Int}
    {a b c : Store} {sid : Nat}
    (h : PostRelEb hostel date room share b c sid)
    (hb : b.monthly_accounts.find? (matchesMonthlyKey hostel sid date) =
      a.monthly_accounts.find? (matchesMonthlyKey hostel sid date))
    (hn : a.nextMonthlyId ≤ b.nextMonthlyId) :
    PostRelEb hostel date room share a c sid := by
  unfold PostRelEb at h ⊢
  cases hfind : a.monthly_accounts.find? (matchesMonthlyKey hostel sid date) with
  | some ex =>
      rw [hb, hfind] at h
      exact h
  | none =>
      rw [hb, hfind] at h
      obtain ⟨r, hr, h1, h2, h3, h4, h5, h6, h7, h8, h9, h10⟩ := h
      exact ⟨r, hr, h1, h2, h3, h4, h5, h6, h7, h8, h9, le_trans hn h10⟩

theorem ebUpsertOne_frame (hostel date room : String) (share : Int)
    (st : Store) (s : Student) :
    (ebUpsertOne hostel date room share st s).students = st.students ∧
    (ebUpsertOne hostel date room share st s).rent_payments = st.rent_payments ∧
    (ebUpsertOne hostel date room share st s).extra_food = st.extra_food ∧
    (ebUpsertOne hostel date room share st s).attendance = st.attendance ∧
    (ebUpsertOne hostel date room share st s).nextStudentId = st.nextStudentId ∧
    (ebUpsertOne hostel date room share st s).nextAttendanceId = st.nextAttendanceId := by
  unfold ebUpsertOne
  cases st.monthly_accounts.find? (matchesMonthlyKey hostel s.id date) <;>
    exact ⟨rfl, rfl, rfl, rfl, rfl, rfl⟩

theorem ebUpsertOne_nextId_le (hostel date room : String) (share : Int)
    (st : Store) (s : Student) :
    st.nextMonthlyId ≤ (ebUpsertOne hostel date room share st s).nextMonthlyId := by
  unfold ebUpsertOne
  cases st.monthly_accounts.find? (matchesMonthlyKey hostel s.id date) with
  | some ex => exact le_refl _
  | none => exact Nat.le_succ _

theorem ebUpsertOne_wf (hostel date room : String) (share : Int)
    (st : Store) (s : Student)
    (hN : (st.monthly_accounts.map fun m => m.id).Nodup)
    (hB : ∀ m ∈ st.monthly_accounts, m.id < st.nextMonthlyId) :
    ((ebUpsertOne hostel date room share st s).monthly_accounts.map fun m => m.id).Nodup ∧
    (∀ m ∈ (ebUpsertOne hostel date room share st s).monthly_accounts,
      m.id < (ebUpsertOne hostel date room share st s).nextMonthlyId) := by
  unfold ebUpsertOne
  cases st.monthly_accounts.find? (matchesMonthlyKey hostel s.id date) with
  | some ex =>
      refine ⟨?_, ?_⟩
      · rw [List.map_map]
        have : ((fun m : MonthlyAccount => m.id) ∘ fun m =>
            if m.id == ex.id then
              { m with room_number := room, eb_share := share,
                       eb_remaining := max 0 (share - ex.eb_paid) }
            else m) = fun m : MonthlyAccount => m.id := by
          funext m
          by_cases h : m.id = ex.id <;> simp [h]
        rw [this]
        exact hN
      · intro m hm
        simp only [List.mem_map] at hm
        obtain ⟨b, hb, rfl⟩ := hm
        have hid : (if b.id == ex.id then
            { b with room_number := room, eb_share := share,
                     eb_remaining := max 0 (share - ex.eb_paid) }
          else b).id = b.id := by
          by_cases h : b.id = ex.id <;> simp [h]
        rw [hid]
        exact hB b hb
  | none =>
      refine ⟨?_, ?_⟩
      · rw [List.map_append, List.nodup_append]
        refine ⟨hN, List.nodup_singleton _, ?_⟩
        intro x hx hy
        simp only [List.map_cons, List.map_nil, List.mem_singleton] at hy
        subst hy
        simp only [List.mem_map] at hx
        obtain ⟨b, hb, hbid⟩ := hx
        exact absurd hbid (Nat.ne_of_lt (hB b hb))
      · intro m hm
        rcases List.mem_append.mp hm with h | h
        · exact Nat.lt_succ_of_lt (hB m h)
        · simp only [List.mem_singleton] at h
          subst h
          exact Nat.lt_succ_self _

theorem ebUpsertOne_post (hostel date room : String) (share : Int)
    (st : Store) (s : Student) :
    PostRelEb hostel date room share st (ebUpsertOne hostel date room share st s) s.id := by
  unfold PostRelEb ebUpsertOne
  cases hfind : st.monthly_accounts.find? (matchesMonthlyKey hostel s.id date) with
  | some ex =>
      rw [find?_map_of_pred_inv _ _
        (matchesMonthlyKey_ebSet hostel date s.id ex.id room share
          (max 0 (share - ex.eb_paid))) st.monthly_accounts,
        hfind, Option.map_some']
      simp
  | none =>
      refine ⟨⟨st.nextMonthlyId, hostel, s.id, date, room, 0, 0, share, 0, share⟩,
        ?_, rfl, rfl, rfl, rfl, rfl, rfl, rfl, rfl, rfl, le_refl _⟩
      rw [List.find?_append, hfind, Option.none_or]
      exact List.find?_cons_of_pos _ (by simp [matchesMonthlyKey])

theorem ebUpsertOne_find?_other (hostel date room : String) (share : Int)
    (st : Store) (s : Student) (sid : Nat)
    (hN : (st.monthly_accounts.map fun m => m.id).Nodup) (hne : sid ≠ s.id) :
    (ebUpsertOne hostel date room share st s).monthly_accounts.find?
        (matchesMonthlyKey hostel sid date) =
      st.monthly_accounts.find? (matchesMonthlyKey hostel sid date) := by
  unfold ebUpsertOne
  cases hfind : st.monthly_accounts.find? (matchesMonthlyKey hostel s.id date) with
  | some ex =>
      show (st.monthly_accounts.map _).find? (matchesMonthlyKey hostel sid date) = _
      rw [find?_map_of_pred_inv _ _
        (matchesMonthlyKey_ebSet hostel date sid ex.id room share
          (max 0 (share - ex.eb_paid))) st.monthly_accounts]
      cases hsid : st.monthly_accounts.find? (matchesMonthlyKey hostel sid date) with
      | none => rfl
      | some r =>
          rw [Option.map_some']
          have hrne : ¬(r.id == ex.id) = true := by
            intro hid
            have hreq : r = ex :=
              List.inj_on_of_nodup_map hN (List.mem_of_find?_eq_some hsid)
                (List.mem_of_find?_eq_some hfind) (by simpa using hid)
            have h1 : r.student_id = sid := matchesMonthlyKey_student_id (List.find?_some hsid)
            have h2 : ex.student_id = s.id := matchesMonthlyKey_student_id (List.find?_some hfind)
            exact hne (by rw [← h1, hreq, h2])
          simp [hrne]
  | none =>
      show (st.monthly_accounts ++ [_]).find? (matchesMonthlyKey hostel sid date) = _
      rw [List.find?_append]
      have hnew : matchesMonthlyKey hostel sid date
          ⟨st.nextMonthlyId, hostel, s.id, date, room, 0, 0, share, 0, share⟩ = false := by
        simp [matchesMonthlyKey]
        exact fun h => absurd h.symm hne
      cases hsid : st.monthly_accounts.find? (matchesMonthlyKey hostel sid date) with
      | some r => rfl
      | none =>
          rw [Option.none_or, List.find?_cons_of_neg _ (by simp [hnew])]
          rfl

/-- Everything the EB batch loop guarantees about its final store `res`
relative to the store `acc` it started from. -/
def EbFoldOutcome (hostel date room : String) (share : Int)
    (ss : List Student) (acc res : Store) : Prop :=
  res.students = acc.students ∧
  res.rent_payments = acc.rent_payments ∧
  res.extra_food = acc.extra_food ∧
  res.attendance = acc.attendance ∧
  res.nextStudentId = acc.nextStudentId ∧
  res.nextAttendanceId = acc.nextAttendanceId ∧
  (res.monthly_accounts.map fun m => m.id).Nodup ∧
  (∀ m ∈ res.monthly_accounts, m.id < res.nextMonthlyId) ∧
  acc.nextMonthlyId ≤ res.nextMonthlyId ∧
  (∀ sid : Nat, (∀ s ∈ ss, s.id ≠ sid) →
    res.monthly_accounts.find? (matchesMonthlyKey hostel sid date) =
      acc.monthly_accounts.find? (matchesMonthlyKey hostel sid date)) ∧
  (∀ s ∈ ss, PostRelEb hostel date room share acc res s.id)

theorem ebFold_spec (hostel date room : String) (share : Int) :
    ∀ (ss : List Student) (acc : Store),
      (acc.monthly_accounts.map fun m => m.id).Nodup →
      (∀ m ∈ acc.monthly_accounts, m.id < acc.nextMonthlyId) →
      ((ss.map fun s => s.id).Nodup) →
      EbFoldOutcome hostel date room share ss acc
        (ss.foldl (ebUpsertOne hostel date room share) acc) := by
  intro ss
  induction ss with
  | nil =>
      intro acc hN hB _
      exact ⟨rfl, rfl, rfl, rfl, rfl, rfl, hN, hB, le_refl _,
        fun sid _ => rfl, fun s hs => absurd hs (List.not_mem_nil s)⟩
  | cons s tl ih =>
      intro acc hN hB hss
      rw [List.map_cons, List.nodup_cons] at hss
      obtain ⟨hsid_notin, htl_nodup⟩ := hss
      have hstep_wf := ebUpsertOne_wf hostel date room share acc s hN hB
      have hstep_frame := ebUpsertOne_frame hostel date room share acc s
      have hstep_next := ebUpsertOne_nextId_le hostel date room share acc s
      have IH := ih (ebUpsertOne hostel date room share acc s)
        hstep_wf.1 hstep_wf.2 htl_nodup
      rw [List.foldl_cons]
      obtain ⟨f1, f2, f3, f4, f5, f6, w1, w2, wn, hunch, hpost⟩ := IH
      have htl_ne : ∀ s' ∈ tl, s'.id ≠ s.id := by
        intro s' hs' heq
        exact hsid_notin (List.mem_map.mpr ⟨s', hs', heq⟩)
      refine ⟨by rw [f1, hstep_frame.1], by rw [f2, hstep_frame.2.1],
        by rw [f3, hstep_frame.2.2.1], by rw [f4, hstep_frame.2.2.2.1],
        by rw [f5, hstep_frame.2.2.2.2.1], by rw [f6, hstep_frame.2.2.2.2.2],
        w1, w2, le_trans hstep_next wn, ?_, ?_⟩
      · intro sid hsid
        have h1 := hunch sid fun s' hs' => hsid s' (List.mem_cons_of_mem s hs')
        have h2 := ebUpsertOne_find?_other hostel date room share acc s sid hN
          (fun heq => hsid s (List.mem_cons_self s tl) heq.symm) |>.symm
        rw [h1, ← h2]
      · intro s' hs'
        rcases List.mem_cons.mp hs' with rfl | hs'tl
        · have hpost1 := ebUpsertOne_post hostel date room share acc s'
          have hun := hunch s'.id htl_ne
          exact PostRelEb_congr_right hpost1 hun
        · have hpostIH := hpost s' hs'tl
          have hother := ebUpsertOne_find?_other hostel date room share acc s
            s'.id hN (htl_ne s' hs'tl)
          exact PostRelEb_congr_left hpostIH hother hstep_next

theorem postRoomEbBatch_success (st : Store) (room hostel date : String)
    (eb_total : Int) (hh : hostel ≠ "") (hr : room ≠ "") (hd : date ≠ "")
    (hne : (activeStudents st hostel room).length ≠ 0) :
    postRoomEbBatch st room hostel date eb_total =
      ((activeStudents st hostel room).foldl
          (ebUpsertOne hostel date room
            (Int.fdiv eb_total (activeStudents st hostel room).length)) st,
       ⟨200, true, none, some room, some date,
        some (activeStudents st hostel room).length, some eb_total,
        some (Int.fdiv eb_total (activeStudents st hostel room).length)⟩) := by
  unfold postRoomEbBatch
  rw [if_neg hh, if_neg hr, if_neg hd, if_neg hne]

theorem PostRelEb_exists {hostel date room : String} {share : Int}
    {a b : Store} {sid : Nat} (h : PostRelEb hostel date room share a b sid) :
    ∃ r, b.monthly_accounts.find? (matchesMonthlyKey hostel sid date) = some r ∧
      r.eb_share = share ∧ r.room_number = room := by
  unfold PostRelEb at h
  cases hfind : a.monthly_accounts.find? (matchesMonthlyKey hostel sid date) with
  | some ex =>
      rw [hfind] at h
      exact ⟨_, h, rfl, rfl⟩
  | none =>
      rw [hfind] at h
      obtain ⟨r, hr, _, _, _, h4, _, _, h7, _⟩ := h
      exact ⟨r, hr, h7, h4⟩

/-- C5: a valid EB-batch request on a room with zero active students fails
with the business error "No active students in this room." (success:false)
and returns the store unchanged — no monthly-account row is inserted or
updated. -/
theorem eb_batch_empty_room (st : Store) (room hostel date : String)
    (eb_total : Int) (hh : hostel ≠ "") (hr : room ≠ "") (hd : date ≠ "")
    (hempty : activeStudents st hostel room = []) :
    postRoomEbBatch st room hostel date eb_total =
      (st, ⟨200, false, some "No active students in this room.",
            none, none, none, none, none⟩) := by
  unfold postRoomEbBatch
  rw [if_neg hh, if_neg hr, if_neg hd, if_pos (by rw [hempty]; rfl)]

/-- C5 witness: the freshly initialised store has no active students in any
room, and the EB batch leaves it untouched. -/
theorem eb_batch_empty_room_witness :
    postRoomEbBatch emptyStore "101" "H" "2024-01" 100 =
      (emptyStore, ⟨200, false, some "No active students in this room.",
        none, none, none, none, none⟩) :=
  eb_batch_empty_room emptyStore "101" "H" "2024-01" 100 (by decide) (by decide)
    (by decide) (by decide)

/-- C3: with n ≥ 1 active students, the per-student share returned and stored
is the floored quotient `⌊eb_total / n⌋` (`Math.floor` on integer operands is
`Int.fdiv`), identical for every student — the division remainder is dropped,
not redistributed. -/
theorem eb_batch_share_floor (st : Store) (room hostel date : String)
    (eb_total : Int) (hWF : st.WF) (hh : hostel ≠ "") (hr : room ≠ "")
    (hd : date ≠ "") (hne : activeStudents st hostel room ≠ []) :
    (postRoomEbBatch st room hostel date eb_total).2 =
      ⟨200, true, none, some room, some date,
        some (activeStudents st hostel room).length, some eb_total,
        some (Int.fdiv eb_total (activeStudents st hostel room).length)⟩ ∧
    Int.fdiv eb_total (activeStudents st hostel room).length =
      ⌊(eb_total : ℚ) / ((activeStudents st hostel room).length : ℚ)⌋ ∧
    ∀ s ∈ activeStudents st hostel room,
      ∃ r, (postRoomEbBatch st room hostel date eb_total).1.monthly_accounts.find?
          (matchesMonthlyKey hostel s.id date) = some r ∧
        r.eb_share = Int.fdiv eb_total (activeStudents st hostel room).length := by
  obtain ⟨hsN, _, _, _, hmN, hmB⟩ := hWF
  have hlen : (activeStudents st hostel room).length ≠ 0 := by
    intro h
    exact hne (List.length_eq_zero.mp h)
  rw [postRoomEbBatch_success st room hostel date eb_total hh hr hd hlen]
  refine ⟨rfl, ?_, ?_⟩
  · rw [Int.fdiv_eq_ediv _ (by exact_mod_cast Nat.zero_le _),
      Rat.floor_intCast_div_natCast]
  · intro s hs
    have O := ebFold_spec hostel date room
      (Int.fdiv eb_total (activeStudents st hostel room).length)
      (activeStudents st hostel room) st hmN hmB
      (activeStudents_ids_nodup st hostel room hsN)
    obtain ⟨r, hr1, hr2, _⟩ :=
      PostRelEb_exists (O.2.2.2.2.2.2.2.2.2.2 s hs)
    exact ⟨r, hr1, hr2⟩

/-- Three students in room "101" of hostel "H" for the C3 witness. -/
def sampleStore3 : Store :=
  { emptyStore with
    students :=
      [⟨1, "H", "Asha", "", "", "", "101", "", "", 0, 0, 0, "", "", none, 0, none⟩,
       ⟨2, "H", "Bela", "", "", "", "101", "", "", 0, 0, 0, "", "", none, 0, none⟩,
       ⟨3, "H", "Chitra", "", "", "", "101", "", "", 0, 0, 0, "", "", none, 0, none⟩],
    nextStudentId := 4 }

/-- C3 witness: 3 active students and eb_total = 100 yield eb_share = 33 for
each (floor(100/3)); the remainder 1 is dropped. -/
theorem eb_batch_share_floor_witness :
    (postRoomEbBatch sampleStore3 "101" "H" "2024-01" 100).2 =
      ⟨200, true, none, some "101", some "2024-01", some 3, some 100, some 33⟩ ∧
    ∃ r, (postRoomEbBatch sampleStore3 "101" "H" "2024-01" 100).1.monthly_accounts.find?
        (matchesMonthlyKey "H" 1 "2024-01") = some r ∧ r.eb_share = 33 := by
  have h := eb_batch_share_floor sampleStore3 "101" "H" "2024-01" 100
    (by decide) (by decide) (by decide) (by decide) (by decide)
  refine ⟨h.1.trans (by decide), ?_⟩
  obtain ⟨r, hr1, hr2⟩ := h.2.2
    ⟨1, "H", "Asha", "", "", "", "101", "", "", 0, 0, 0, "", "", none, 0, none⟩
    (by decide)
  exact ⟨r, hr1, hr2.trans (by decide)⟩

/-- C4: for every active student, an existing monthly-account row for the
(hostel, student, date) key keeps its `eb_paid` (and rent fields) while
`room_number` and `eb_share` are overwritten and
`eb_remaining = max(0, eb_share − eb_paid)` is recomputed; absent such a row,
a fresh one is inserted with `eb_paid = 0` and `eb_remaining = eb_share`
(this is `PostRelEb`). -/
theorem eb_rerun_preserves_payment (st : Store) (room hostel date : String)
    (eb_total : Int) (hWF : st.WF) (hh : hostel ≠ "") (hr : room ≠ "")
    (hd : date ≠ "") (hne : activeStudents st hostel room ≠ [])
    (s : Student) (hs : s ∈ activeStudents st hostel room) :
    PostRelEb hostel date room
      (Int.fdiv eb_total (activeStudents st hostel room).length) st
      (postRoomEbBatch st room hostel date eb_total).1 s.id := by
  obtain ⟨hsN, _, _, _, hmN, hmB⟩ := hWF
  have hlen : (activeStudents st hostel room).length ≠ 0 := by
    intro h
    exact hne (List.length_eq_zero.mp h)
  rw [postRoomEbBatch_success st room hostel date eb_total hh hr hd hlen]
  have O := ebFold_spec hostel date room
    (Int.fdiv eb_total (activeStudents st hostel room).length)
    (activeStudents st hostel room) st hmN hmB
    (activeStudents_ids_nodup st hostel room hsN)
  exact O.2.2.2.2.2.2.2.2.2.2 s hs

/-- Store for the C4 witness: the spec's worked example — the student already
has a monthly row with eb_share = 33, eb_paid = 10, eb_remaining = 23. -/
def sampleStoreEb : Store :=
  { emptyStore with
    students := [sampleStudent], nextStudentId := 2,
    monthly_accounts := [⟨1, "H", 1, "2024-01", "101", 0, 0, 33, 10, 23⟩],
    nextMonthlyId := 2 }

/-- C4 witness: re-running eb-batch with a total that yields eb_share = 40
updates the row to eb_remaining = 30 while keeping eb_paid = 10. -/
theorem eb_rerun_preserves_payment_witness :
    PostRelEb "H" "2024-01" "101" 40 sampleStoreEb
      (postRoomEbBatch sampleStoreEb "101" "H" "2024-01" 40).1 1 ∧
    (postRoomEbBatch sampleStoreEb "101" "H" "2024-01" 40).1.monthly_accounts.find?
        (matchesMonthlyKey "H" 1 "2024-01") =
      some ⟨1, "H", 1, "2024-01", "101", 0, 0, 40, 10, 30⟩ :=
  ⟨eb_rerun_preserves_payment sampleStoreEb "101" "H" "2024-01" 40 (by decide)
    (by decide) (by decide) (by decide) (by decide) sampleStudent (by decide),
   by decide⟩

/-! Delete / restore lifecycle. -/

/-- C6: permanent delete removes the student row and every row referencing
the student id in the four dependent tables; afterwards each dependent-table
query for that id returns empty.  (In the pure embedding the handler is a
single total function, so the transaction's all-or-nothing behaviour is
inherent: the conclusion holds for the one final state it produces.) -/
theorem permanent_delete_cascade (st : Store) (id : Nat) :
    (∀ a ∈ (deleteStudentPermanent st id).1.attendance, a.student_id ≠ id) ∧
    (∀ e ∈ (deleteStudentPermanent st id).1.extra_food, e.student_id ≠ id) ∧
    (∀ r ∈ (deleteStudentPermanent st id).1.rent_payments, r.student_id ≠ id) ∧
    (∀ m ∈ (deleteStudentPermanent st id).1.monthly_accounts, m.student_id ≠ id) ∧
    (∀ s ∈ (deleteStudentPermanent st id).1.students, s.id ≠ id) ∧
    studentAttendanceRows (deleteStudentPermanent st id).1 id = [] ∧
    studentExtraFoodRows (deleteStudentPermanent st id).1 id = [] ∧
    studentRentRows (deleteStudentPermanent st id).1 id = [] ∧
    studentMonthlyRows (deleteStudentPermanent st id).1 id = [] := by
  refine ⟨?_, ?_, ?_, ?_, ?_, ?_, ?_, ?_, ?_⟩
  · intro a ha
    have := (List.mem_filter.mp ha).2
    simpa using this
  · intro e he
    have := (List.mem_filter.mp he).2
    simpa using this
  · intro r hr
    have := (List.mem_filter.mp hr).2
    simpa using this
  · intro m hm
    have := (List.mem_filter.mp hm).2
    simpa using this
  · intro s hs
    have := (List.mem_filter.mp hs).2
    simpa using this
  · refine List.filter_eq_nil_iff.mpr ?_
    intro a ha
    have := (List.mem_filter.mp ha).2
    simpa using this
  · refine List.filter_eq_nil_iff.mpr ?_
    intro e he
    have := (List.mem_filter.mp he).2
    simpa using this
  · refine List.filter_eq_nil_iff.mpr ?_
    intro r hr
    have := (List.mem_filter.mp hr).2
    simpa using this
  · refine List.filter_eq_nil_iff.mpr ?_
    intro m hm
    have := (List.mem_filter.mp hm).2
    simpa using this

/-- C6 witness: the cascade conclusions applied at a concrete store. -/
theorem permanent_delete_cascade_witness :
    studentAttendanceRows (deleteStudentPermanent sampleStoreWithAttendance 1).1 1 = [] ∧
    (∀ s ∈ (deleteStudentPermanent sampleStoreWithAttendance 1).1.students, s.id ≠ 1) := by
  have h := permanent_delete_cascade sampleStoreWithAttendance 1
  exact ⟨h.2.2.2.2.2.1, h.2.2.2.2.1⟩

/-- C10: in the Postgres variant the dependent-row deletions are committed
before the student row count is inspected, so for an id that has dependent
rows but no student row the handler answers success:false "Student not
found" even though the dependent rows are gone — the not-found outcome is
not state-preserving. -/
theorem permanent_delete_not_found_not_state_preserving (st : Store) (id : Nat)
    (r : AttendanceRow) (hne : ∀ s ∈ st.students, s.id ≠ id)
    (hmem : r ∈ st.attendance) (hrid : r.student_id = id) :
    (deleteStudentPermanent st id).2 = ⟨200, false, some "Student not found"⟩ ∧
    r ∉ (deleteStudentPermanent st id).1.attendance ∧
    (deleteStudentPermanent st id).1.attendance ≠ st.attendance := by
  have hcnt : (st.students.filter (fun s => s.id == id)).length = 0 := by
    rw [List.length_eq_zero, List.filter_eq_nil_iff]
    intro s hs
    simpa using hne s hs
  have hnotmem : r ∉ (deleteStudentPermanent st id).1.attendance := by
    intro hr
    have := (List.mem_filter.mp hr).2
    rw [hrid] at this
    simp at this
  refine ⟨?_, hnotmem, ?_⟩
  · show (if (st.students.filter (fun s => s.id == id)).length = 0 then _ else _) = _
    rw [if_pos hcnt]
  · intro heq
    exact hnotmem (heq ▸ hmem)

/-- Store with an orphaned attendance row (student_id 7 has no student row),
for the C10 witness. -/
def sampleStoreOrphan : Store :=
  { emptyStore with
    attendance := [⟨1, "H", "2024-01-01", "101", 7, "Present"⟩],
    nextAttendanceId := 2 }

/-- C10 witness: deleting id 7 answers "Student not found" yet removes the
orphaned attendance row. -/
theorem permanent_delete_not_found_witness :
    (deleteStudentPermanent sampleStoreOrphan 7).2 =
      ⟨200, false, some "Student not found"⟩ ∧
    (⟨1, "H", "2024-01-01", "101", 7, "Present"⟩ : AttendanceRow) ∉
      (deleteStudentPermanent sampleStoreOrphan 7).1.attendance ∧
    (deleteStudentPermanent sampleStoreOrphan 7).1.attendance ≠
      sampleStoreOrphan.attendance := by
  have h := permanent_delete_not_found_not_state_preserving sampleStoreOrphan 7
    ⟨1, "H", "2024-01-01", "101", 7, "Present"⟩ (by decide) (by decide) (by decide)
  exact h

/-- C7: soft delete succeeds exactly when an active student with the id
exists; on success that student's row becomes is_deleted = 1 with deleted_at
set to the current timestamp; otherwise the handler answers the business
not-found failure (HTTP 200, success:false) and the store is unchanged. -/
theorem soft_delete_guard (st : Store) (id : Nat) (now : String) :
    ((softDeleteStudent st id now).2.success = true ↔
      ∃ s ∈ st.students, s.id = id ∧ s.is_deleted = 0) ∧
    ((∀ s ∈ st.students, ¬(s.id = id ∧ s.is_deleted = 0)) →
      softDeleteStudent st id now =
        (st, ⟨200, false, some "Student not found (or already deleted)"⟩)) ∧
    ∀ s ∈ st.students, s.id = id → s.is_deleted = 0 →
      (softDeleteStudent st id now).2 = ⟨200, true, none⟩ ∧
      { s with is_deleted := 1, deleted_at := some now } ∈
        (softDeleteStudent st id now).1.students := by
  refine ⟨?_, ?_, ?_⟩
  · constructor
    · intro hsucc
      by_contra hno
      have hcnt : (st.students.filter (fun s => s.id == id && s.is_deleted == 0)).length = 0 := by
        rw [List.length_eq_zero, List.filter_eq_nil_iff]
        intro s hs hP
        simp only [Bool.and_eq_true, beq_iff_eq] at hP
        exact hno ⟨s, hs, hP.1, hP.2⟩
      have : (softDeleteStudent st id now).2.success = false := by
        show (if _ = 0 then (⟨200, false, _⟩ : ApiResponse) else _).success = false
        rw [if_pos hcnt]
      rw [this] at hsucc
      exact Bool.false_ne_true hsucc
    · rintro ⟨s, hs, h1, h2⟩
      have hmem : s ∈ st.students.filter (fun s => s.id == id && s.is_deleted == 0) :=
        List.mem_filter.mpr ⟨hs, by simp [h1, h2]⟩
      have hcnt : (st.students.filter (fun s => s.id == id && s.is_deleted == 0)).length ≠ 0 := by
        intro h
        rw [List.length_eq_zero] at h
        rw [h] at hmem
        exact List.not_mem_nil s hmem
      show (if _ = 0 then (⟨200, false, _⟩ : ApiResponse) else ⟨200, true, none⟩).success = true
      rw [if_neg hcnt]
  · intro hno
    have hcnt : (st.students.filter (fun s => s.id == id && s.is_deleted == 0)).length = 0 := by
      rw [List.length_eq_zero, List.filter_eq_nil_iff]
      intro s hs
      have := hno s hs
      simp only [Bool.and_eq_true, beq_iff_eq, not_and]
      intro h1
      exact fun h2 => this ⟨h1, h2⟩
    have hmap : st.students.map (softDeleteUpdater id now) = st.students := by
      apply map_eq_self_of_mem
      intro s hs
      have hP : ¬(s.id == id && s.is_deleted == 0) = true := by
        have := hno s hs
        simp only [Bool.and_eq_true, beq_iff_eq, not_and]
        intro h1
        exact fun h2 => this ⟨h1, h2⟩
      unfold softDeleteUpdater
      rw [if_neg hP]
    show ({ st with students := _ }, _) = _
    rw [hmap, if_pos hcnt]
  · intro s hs h1 h2
    have hmem : s ∈ st.students.filter (fun s => s.id == id && s.is_deleted == 0) :=
      List.mem_filter.mpr ⟨hs, by simp [h1, h2]⟩
    have hcnt : (st.students.filter (fun s => s.id == id && s.is_deleted == 0)).length ≠ 0 := by
      intro h
      rw [List.length_eq_zero] at h
      rw [h] at hmem
      exact List.not_mem_nil s hmem
    constructor
    · show (if _ = 0 then (⟨200, false, _⟩ : ApiResponse) else ⟨200, true, none⟩) = _
      rw [if_neg hcnt]
    · refine List.mem_map.mpr ⟨s, hs, ?_⟩
      simp [softDeleteUpdater, h1, h2]

/-- C7 witness: soft-deleting the concrete active student succeeds and
stamps the row. -/
theorem soft_delete_guard_witness :
    (softDeleteStudent sampleStore 1 "2024-02-01T00:00:00Z").2 = ⟨200, true, none⟩ ∧
    { sampleStudent with is_deleted := 1,
                         deleted_at := some "2024-02-01T00:00:00Z" } ∈
      (softDeleteStudent sampleStore 1 "2024-02-01T00:00:00Z").1.students := by
  have h := soft_delete_guard sampleStore 1 "2024-02-01T00:00:00Z"
  exact h.2.2 sampleStudent (by decide) (by decide) (by decide)

theorem restoreStudent_fst (st : Store) (id : Nat) :
    (restoreStudent st id).1 =
      { st with students := st.students.map (restoreUpdater id) } :=
  rfl

theorem restoreStudent_snd (st : Store) (id : Nat) :
    (restoreStudent st id).2 =
      if (st.students.filter (fun s => s.id == id)).length = 0 then
        ⟨200, false, some "Student not found"⟩
      else ⟨200, true, none⟩ :=
  rfl

theorem softDeleteStudent_fst (st : Store) (id : Nat) (now : String) :
    (softDeleteStudent st id now).1 =
      { st with students := st.students.map (softDeleteUpdater id now) } :=
  rfl

theorem restoreUpdater_id (id : Nat) (s : Student) : (restoreUpdater id s).id = s.id := by
  unfold restoreUpdater
  by_cases h : s.id = id <;> simp [h]

theorem softDeleteUpdater_id (id : Nat) (now : String) (s : Student) :
    (softDeleteUpdater id now s).id = s.id := by
  unfold softDeleteUpdater
  by_cases h : (s.id == id && s.is_deleted == 0) = true <;> simp [h]

theorem restore_map_fields (l : List Student) (id : Nat) :
    ∀ s ∈ l.map (restoreUpdater id), s.id = id →
      s.is_deleted = 0 ∧ s.deleted_at = none := by
  intro s hs hid
  obtain ⟨b, hb, rfl⟩ := List.mem_map.mp hs
  unfold restoreUpdater at hid ⊢
  by_cases h : b.id = id
  · simp [h]
  · rw [if_neg (by simpa using h)] at hid
    exact absurd hid h

theorem restore_map_idem (l : List Student) (id : Nat) :
    (l.map (restoreUpdater id)).map (restoreUpdater id) = l.map (restoreUpdater id) := by
  rw [List.map_map]
  refine List.map_congr_left fun a _ => ?_
  show restoreUpdater id (restoreUpdater id a) = restoreUpdater id a
  unfold restoreUpdater
  by_cases h : a.id = id
  · simp [h]
  · simp [h]

theorem restore_map_filter_length (l : List Student) (id : Nat) :
    ((l.map (restoreUpdater id)).filter (fun s => s.id == id)).length =
      (l.filter (fun s => s.id == id)).length := by
  induction l with
  | nil => rfl
  | cons a t ih =>
      rw [List.map_cons, List.filter_cons, List.filter_cons, restoreUpdater_id]
      by_cases h : (a.id == id) = true
      · rw [if_pos h, if_pos h, List.length_cons, List.length_cons, ih]
      · rw [if_neg h, if_neg h, ih]

/-- C8: restore clears is_deleted/deleted_at for the row with the given id
without any guard on is_deleted, so a repeated restore changes nothing (the
operation is idempotent, already-active rows included); it fails with
"Student not found" exactly when no student row with the id exists; and
soft-delete followed by restore puts the student back with is_deleted = 0
and deleted_at cleared. -/
theorem restore_idempotent (st : Store) (id : Nat) :
    restoreStudent (restoreStudent st id).1 id = restoreStudent st id ∧
    ((∀ s ∈ st.students, s.id ≠ id) →
      restoreStudent st id = (st, ⟨200, false, some "Student not found"⟩)) ∧
    ((∃ s ∈ st.students, s.id = id) →
      (restoreStudent st id).2 = ⟨200, true, none⟩) ∧
    (∀ s ∈ (restoreStudent st id).1.students, s.id = id →
      s.is_deleted = 0 ∧ s.deleted_at = none) ∧
    (∀ now : String, ∀ s ∈ st.students, s.id = id →
      ∃ sr ∈ (restoreStudent (softDeleteStudent st id now).1 id).1.students,
        sr.id = id ∧ sr.is_deleted = 0 ∧ sr.deleted_at = none) := by
  refine ⟨?_, ?_, ?_, ?_, ?_⟩
  · have h1 : (restoreStudent (restoreStudent st id).1 id).1 = (restoreStudent st id).1 := by
      rw [restoreStudent_fst, restoreStudent_fst]
      show ({ st with students := (st.students.map (restoreUpdater id)).map (restoreUpdater id) } : Store) =
        { st with students := st.students.map (restoreUpdater id) }
      rw [restore_map_idem]
    have h2 : (restoreStudent (restoreStudent st id).1 id).2 = (restoreStudent st id).2 := by
      rw [restoreStudent_snd, restoreStudent_snd]
      show (if ((st.students.map (restoreUpdater id)).filter (fun s => s.id == id)).length = 0
          then (⟨200, false, some "Student not found"⟩ : ApiResponse) else ⟨200, true, none⟩) =
        if (st.students.filter (fun s => s.id == id)).length = 0
          then ⟨200, false, some "Student not found"⟩ else ⟨200, true, none⟩
      rw [restore_map_filter_length]
    exact Prod.ext h1 h2
  · intro hne
    have hcnt : (st.students.filter (fun s => s.id == id)).length = 0 := by
      rw [List.length_eq_zero, List.filter_eq_nil_iff]
      intro s hs
      simpa using hne s hs
    have hmap : st.students.map (restoreUpdater id) = st.students := by
      apply map_eq_self_of_mem
      intro s hs
      unfold restoreUpdater
      rw [if_neg (by simpa using hne s hs)]
    refine Prod.ext ?_ ?_
    · rw [restoreStudent_fst, hmap]
    · rw [restoreStudent_snd, if_pos hcnt]
  · rintro ⟨s, hs, hid⟩
    have hmem : s ∈ st.students.filter (fun s => s.id == id) :=
      List.mem_filter.mpr ⟨hs, by simp [hid]⟩
    have hcnt : (st.students.filter (fun s => s.id == id)).length ≠ 0 := by
      intro h
      rw [List.length_eq_zero] at h
      rw [h] at hmem
      exact List.not_mem_nil s hmem
    rw [restoreStudent_snd, if_neg hcnt]
  · rw [restoreStudent_fst]
    exact restore_map_fields st.students id
  · intro now s hs hid
    refine ⟨restoreUpdater id (softDeleteUpdater id now s), ?_, ?_⟩
    · rw [restoreStudent_fst, softDeleteStudent_fst]
      exact List.mem_map_of_mem _ (List.mem_map_of_mem _ hs)
    · have hid2 : (restoreUpdater id (softDeleteUpdater id now s)).id = id := by
        rw [restoreUpdater_id, softDeleteUpdater_id, hid]
      have hfields := restore_map_fields (st.students.map (softDeleteUpdater id now)) id
        (restoreUpdater id (softDeleteUpdater id now s))
        (List.mem_map_of_mem _ (List.mem_map_of_mem _ hs)) hid2
      exact ⟨hid2, hfields.1, hfields.2⟩

/-- Store with one soft-deleted student, for the C8 witness. -/
def sampleStoreDeleted : Store :=
  { emptyStore with
    students := [{ sampleStudent with is_deleted := 1,
                                      deleted_at := some "2024-02-01T00:00:00Z" }],
    nextStudentId := 2 }

/-- C8 witness: restoring the concrete soft-deleted student succeeds, is
idempotent, and clears the deletion fields. -/
theorem restore_idempotent_witness :
    restoreStudent (restoreStudent sampleStoreDeleted 1).1 1 =
      restoreStudent sampleStoreDeleted 1 ∧
    (restoreStudent sampleStoreDeleted 1).2 = ⟨200, true, none⟩ ∧
    ∀ s ∈ (restoreStudent sampleStoreDeleted 1).1.students, s.id = 1 →
      s.is_deleted = 0 ∧ s.deleted_at = none := by
  have h := restore_idempotent sampleStoreDeleted 1
  refine ⟨h.1, h.2.2.1 ?_, h.2.2.2.1⟩
  exact ⟨{ sampleStudent with is_deleted := 1,
                              deleted_at := some "2024-02-01T00:00:00Z" },
    by decide, by decide⟩

end Hostel
